import Mathlib

/-!
Verification of the inventory-system backend (`src/backend/app`).

The development shallowly embeds the sale-creation / cancellation state
machine of `routes/sales.py` and the bulk-import pipeline of
`routes/products.py` over an explicit database / registry state, and
settles the specification claims about them.

Conventions:
* Python `Decimal` values (prices, subtotals, totals) are embedded as `ℚ`:
  `Decimal` arithmetic on these magnitudes is exact, and
  `Decimal(str(x)) * Decimal(str(y))` is exact rational multiplication.
* MySQL integer columns are embedded as `Int` (signed, no CHECK
  constraint); `stock` in particular can be driven negative by an
  unguarded `UPDATE ... SET stock = stock - %s`.
* A row set is a `List` of record rows; `SELECT ... WHERE` is `find?` /
  `filter`, `UPDATE ... WHERE id = %s` is a `map` guarded on the id.
* The per-request transaction of `create_sale` / `cancel_sale` is embedded
  by returning the post-state: on the exception paths the source rolls the
  connection back, so the embedding returns the unchanged input state.
-/

/-- A row of the `products` table (`models.py` `ProductBase` and the
columns used by `routes/sales.py` / `routes/products.py`). -/
structure Product where
  id : Nat
  name : String
  description : Option String := none
  sku : Option String := none
  price : ℚ
  stock : Int
  min_stock : Int := 5
  category_id : Option Int := none
  is_active : Bool := true
deriving DecidableEq

/-- A row of the `sales` table. -/
structure SaleRow where
  id : Nat
  user_id : Nat
  total_amount : ℚ
  status : String
  notes : Option String
deriving DecidableEq

/-- A row of the `sale_items` table. -/
structure SaleItemRow where
  sale_id : Nat
  product_id : Nat
  quantity : Nat
  unit_price : ℚ
  subtotal : ℚ
deriving DecidableEq

/-- The relational state touched by the sale endpoints.  `next_sale_id`
models the auto-increment counter behind `cursor.lastrowid`. -/
structure DB where
  products : List Product
  sales : List SaleRow
  sale_items : List SaleItemRow
  next_sale_id : Nat
deriving DecidableEq

/-- One item of a sale request (`models.py` `SaleItemBase`): pydantic
enforces `quantity > 0` and `unit_price > 0` before the handler runs. -/
structure SaleItemReq where
  product_id : Nat
  quantity : Nat
  unit_price : ℚ
deriving DecidableEq

/-- A sale request (`models.py` `SaleCreate`). -/
structure SaleCreateReq where
  items : List SaleItemReq
  notes : Option String
deriving DecidableEq

/-- The validation failures `create_sale` can raise while checking one
item (`routes/sales.py` lines 89–114), with the data each detail message
interpolates. -/
inductive SaleErr where
  | notFound (product_id : Nat)
  | notAvailable (name : String)
  | insufficientStock (name : String) (available : Int) (requested : Nat)
deriving DecidableEq

/-- The `detail` string of the `HTTPException` raised for each
validation failure (`routes/sales.py` lines 93, 101, 112–113). -/
def SaleErr.detail : SaleErr → String
  | .notFound pid => s!"Producto con ID {pid} no encontrado"
  | .notAvailable n => s!"El producto \x27{n}\x27 no está disponible para venta"
  | .insufficientStock n avail reqd =>
      s!"Stock insuficiente para \x27{n}\x27. Disponible: {avail}, Solicitado: {reqd}"

/-- One entry of `validated_items` (`routes/sales.py` lines 121–128);
`product_name` and `current_stock` are only used for logging and the
stock decrement respectively, so only the persisted fields are kept. -/
structure ValidatedItem where
  product_id : Nat
  quantity : Nat
  unit_price : ℚ
  subtotal : ℚ
deriving DecidableEq

/-- The three checks `create_sale` runs on one item, in source order
(`routes/sales.py` lines 82–114): fetch by id — 404 if absent; then
`is_active` — 400 if inactive; then `stock < quantity` — 400 if short.
`none` means the item validates. -/
def itemCheck (db : DB) (item : SaleItemReq) : Option SaleErr :=
  match db.products.find? (fun p => p.id = item.product_id) with
  | none => some (.notFound item.product_id)
  | some product =>
    if product.is_active = false then some (.notAvailable product.name)
    else if product.stock < (item.quantity : Int) then
      some (.insufficientStock product.name product.stock item.quantity)
    else none

/-- The validation loop of `create_sale` (`routes/sales.py` lines 77–133):
walks the items in input order, accumulating `total_amount` (starting
from `Decimal('0.00')`) and `validated_items`; the first failing check
aborts the remaining items. -/
def validateItems (db : DB) :
    List SaleItemReq → ℚ → List ValidatedItem →
    Except SaleErr (List ValidatedItem × ℚ)
  | [], total, acc => .ok (acc, total)
  | item :: rest, total, acc =>
    match itemCheck db item with
    | some e => .error e
    | none =>
      let subtotal := item.unit_price * (item.quantity : ℚ)
      validateItems db rest (total + subtotal)
        (acc ++ [{ product_id := item.product_id, quantity := item.quantity,
                   unit_price := item.unit_price, subtotal := subtotal }])

/-- `UPDATE products SET stock = stock - %s WHERE id = %s`
(`routes/sales.py` lines 173–183). -/
def decStock (db : DB) (pid : Nat) (q : Nat) : DB :=
  { db with products := db.products.map (fun p =>
      if p.id = pid then { p with stock := p.stock - (q : Int) } else p) }

/-- `create_sale` (`routes/sales.py` lines 33–232): validate every item,
then insert the Sale row (status `completed`), the SaleItem rows, and
decrement each product's stock, all in one transaction.  A validation
failure raises before any insert and the handler rolls the transaction
back, so the returned state is the input state.

The source passes `float(total_amount)` / `float(subtotal)` to the
driver.  Modelled from the spec: the storage schema (DECIMAL columns) is
not under `src/`; per the spec the persisted decimal values carry no
rounding drift at these scales, so the insert stores the exact values. -/
def create_sale (db : DB) (user_id : Nat) (sale : SaleCreateReq) :
    DB × Except SaleErr Nat :=
  match validateItems db sale.items 0 [] with
  | .error e => (db, .error e)
  | .ok (validated, total_amount) =>
    let sale_id := db.next_sale_id
    let saleRow : SaleRow :=
      { id := sale_id, user_id := user_id, total_amount := total_amount,
        status := "completed", notes := sale.notes }
    let itemRows : List SaleItemRow := validated.map (fun v =>
      { sale_id := sale_id, product_id := v.product_id, quantity := v.quantity,
        unit_price := v.unit_price, subtotal := v.subtotal })
    let db1 : DB :=
      { db with sales := db.sales ++ [saleRow],
                sale_items := db.sale_items ++ itemRows,
                next_sale_id := sale_id + 1 }
    let db2 := validated.foldl (fun d v => decStock d v.product_id v.quantity) db1
    (db2, .ok sale_id)

/-- The failures `cancel_sale` can raise (`routes/sales.py` lines 546–556). -/
inductive CancelErr where
  | notFound (sale_id : Nat)
  | alreadyCancelled
deriving DecidableEq

/-- `UPDATE products SET stock = stock + %s WHERE id = %s`
(`routes/sales.py` lines 568–573). -/
def incStock (db : DB) (pid : Nat) (q : Nat) : DB :=
  { db with products := db.products.map (fun p =>
      if p.id = pid then { p with stock := p.stock + (q : Int) } else p) }

/-- `cancel_sale` (`routes/sales.py` lines 506–610): fetch the sale —
404 if absent, 400 if already `cancelled`; otherwise add each item's
quantity back to its product's stock, set the sale's status to
`cancelled`, commit.  The failure paths roll back, leaving the state
unchanged. -/
def cancel_sale (db : DB) (sale_id : Nat) : DB × Except CancelErr Unit :=
  match db.sales.find? (fun s => s.id = sale_id) with
  | none => (db, .error (.notFound sale_id))
  | some sale =>
    if sale.status = "cancelled" then (db, .error .alreadyCancelled)
    else
      let items := db.sale_items.filter (fun it => it.sale_id = sale_id)
      let db1 := items.foldl (fun d it => incStock d it.product_id it.quantity) db
      let db2 : DB :=
        { db1 with sales := db1.sales.map (fun s =>
            if s.id = sale_id then { s with status := "cancelled" } else s) }
      (db2, .ok ())

/-- Python `str.strip()` as used on the spreadsheet cells
(`routes/products.py` lines 59–65): drop leading and trailing
whitespace. -/
def pyStrip (s : String) : String :=
  ⟨((s.data.dropWhile Char.isWhitespace).reverse.dropWhile
      Char.isWhitespace).reverse⟩

/-- One in-memory progress entry of `upload_progress`
(`routes/products.py` lines 610–623).  `started_at` (wall-clock) is not
modelled. -/
structure ImportJob where
  upload_id : String
  status : String
  progress : Nat
  total : Nat
  procesados : Nat
  exitosos : Nat
  errores : Nat
  duplicados : Nat
  detalles_errores : List String
  message : String
  username : String
deriving DecidableEq

/-- A parsed spreadsheet row as `process_excel_row` reads it
(`routes/products.py` lines 59–65): each field is `none` when the cell
is absent / NaN, otherwise the coerced value before `.strip()`. -/
structure ExcelRow where
  nombre : Option String
  sku : Option String
  precio : Option ℚ
  stockVal : Option Int
  minStockVal : Option Int
  categoria : Option Int
  descripcion : Option String
deriving DecidableEq

/-- The result dictionary of `process_excel_row`
(`routes/products.py` lines 69–106): `success` ↦ `success`,
`success=False` with `duplicate=True` ↦ `dupSku`, plain `success=False`
↦ `failure`; each failure carries its `error` message. -/
inductive RowResult where
  | success (product_name : String)
  | failure (error : String) (product_name : String)
  | dupSku (error : String) (product_name : String)
deriving DecidableEq

/-- The data part of `process_excel_row` (`routes/products.py`
lines 58–106): field extraction, validation, duplicate-sku check and the
insert.  `gatewayOk` models the row count returned by `execute_query`
for the `INSERT` (`result > 0` iff the insert succeeded); the inserted
product's id is engine-assigned, modelled as one past the store length.
The progress update that opens `process_excel_row` (lines 49–56) is
applied by the caller `importLoop`, mirroring its position in the
source. -/
def processRowData (store : List Product) (row : ExcelRow) (index : Nat)
    (gatewayOk : Bool) : RowResult × List Product :=
  let nombre := row.nombre.map pyStrip
  let skuV := row.sku.map pyStrip
  let stockv := row.stockVal.getD 0
  let min_stockv := row.minStockVal.getD 5
  let descripcionV := row.descripcion.map pyStrip
  if nombre = none ∨ nombre = some "" then
    (.failure s!"Fila {index + 2}: Nombre vacío" "", store)
  else
    let n := nombre.getD ""
    match row.precio with
    | none => (.failure s!"Fila {index + 2}: Precio inválido (None)" n, store)
    | some precio =>
      if precio ≤ 0 then
        (.failure s!"Fila {index + 2}: Precio inválido ({precio})" n, store)
      else if stockv < 0 then
        (.failure s!"Fila {index + 2}: Stock negativo ({stockv})" n, store)
      else if (match skuV with
               | some s => !(s == "") && store.any (fun p => p.sku == some s)
               | none => false) then
        let skuStr := skuV.getD ""
        (.dupSku s!"SKU duplicado: {skuStr}" n, store)
      else if gatewayOk then
        (.success n,
         store ++ [{ id := store.length + 1, name := n,
                     description := descripcionV, sku := skuV,
                     price := precio, stock := stockv,
                     min_stock := min_stockv, category_id := row.categoria,
                     is_active := true }])
      else
        (.failure s!"Fila {index + 2}: Error al insertar \x27{n}\x27" n, store)

/-- Round half to even: the integer nearest to `x`, ties going to the
even neighbour — the tie-breaking rule of IEEE-754 arithmetic. -/
def rne (x : ℚ) : Int :=
  if x - ⌊x⌋ < 1/2 then ⌊x⌋
  else if 1/2 < x - ⌊x⌋ then ⌊x⌋ + 1
  else if ⌊x⌋ % 2 = 0 then ⌊x⌋ else ⌊x⌋ + 1

/-- The correctly rounded IEEE-754 binary64 value of a non-negative
rational: round to nearest, ties to even, 53-bit significand.  The
exponent is unbounded, so this agrees with binary64 whenever the value
neither overflows nor falls into the subnormal range below `2 ^ -1022`;
for the percentage computation modelled here that covers every file of
fewer than about `2 ^ 1020` rows. -/
def roundNear53 (q : ℚ) : ℚ :=
  if q ≤ 0 then 0
  else
    let e := Int.log 2 q
    ((rne (q * (2 : ℚ) ^ ((52 : Int) - e)) : ℚ)) * (2 : ℚ) ^ (e - (52 : Int))

/-- `int(((index + 1) / total_rows) * 100)` (`routes/products.py`
line 50), embedded exactly as the source computes it: the division and
the multiplication are correctly rounded binary64 operations
(`roundNear53`), and `int` truncates — the floor, the value being
non-negative.  At row 29 of a 100-row file this yields 28, not the
exact floor 29, matching the program. -/
def pct (processed total : Nat) : Nat :=
  (⌊roundNear53 (roundNear53 ((processed : ℚ) / (total : ℚ)) * 100)⌋).toNat

/-- The output of the row loop of `process_excel_file_sync`:
the registry states written during the loop (`trace`, oldest first), the
job state after the last write, the product store, and the local
counters `exitosos` / `errores` / `duplicados` / `error_details`
(`routes/products.py` lines 128–144). -/
structure LoopOut where
  trace : List ImportJob
  job : ImportJob
  store : List Product
  exitosos : Nat
  errores : Nat
  duplicados : Nat
  detalles : List String
deriving DecidableEq

/-- The `for index, row in df.iterrows()` loop of
`process_excel_file_sync` (`routes/products.py` lines 133–144): each row
first publishes `procesados` / `progress` / `message` through
`update_progress` (the call opening `process_excel_row`, lines 49–56),
then is processed, and its outcome bumps one of the local counters;
error messages are recorded while fewer than 10 are held. -/
def importLoop (gateway : Nat → Bool) (total : Nat) :
    List ExcelRow → Nat → ImportJob → List Product →
    Nat → Nat → Nat → List String → LoopOut
  | [], _, job, store, ex, er, du, det =>
    { trace := [], job := job, store := store,
      exitosos := ex, errores := er, duplicados := du, detalles := det }
  | row :: rest, index, job, store, ex, er, du, det =>
    let job1 := { job with
      procesados := index + 1,
      progress := pct (index + 1) total,
      message := s!"Procesando producto {index + 1} de {total}" }
    let (res, store1) := processRowData store row index (gateway index)
    let (ex1, er1, du1, det1) :=
      match res with
      | .success _ => (ex + 1, er, du, det)
      | .dupSku _ _ => (ex, er, du + 1, det)
      | .failure msg _ =>
        (ex, er + 1, du, if det.length < 10 then det ++ [msg] else det)
    let out := importLoop gateway total rest (index + 1) job1 store1 ex1 er1 du1 det1
    { out with trace := job1 :: out.trace }

/-- The outcome of `process_excel_file_sync`: the full sequence of
registry states the run makes visible (starting from the entry the
upload endpoint created), the final job state, and the final store. -/
structure ImportRun where
  trace : List ImportJob
  job : ImportJob
  store : List Product
deriving DecidableEq

/-- `process_excel_file_sync` (`routes/products.py` lines 109–175):
read the file (`readOk = false` models a `pd.read_excel` failure, which
marks the job `error`), publish the row count, run the row loop, then
publish the terminal state carrying the accumulated counters and the
bounded error list.  Every registry write goes through `update_progress`
(lines 36–40), which merges the named fields under `progress_lock`; the
trace lists the successive registry states, oldest first. -/
def process_excel_file_sync (store : List Product) (gateway : Nat → Bool)
    (rows : List ExcelRow) (job0 : ImportJob) (readOk : Bool)
    (readErrMsg : String) : ImportRun :=
  if readOk = false then
    let jobE := { job0 with status := "error", message := s!"Error: {readErrMsg}" }
    { trace := [job0, jobE], job := jobE, store := store }
  else
    let total := rows.length
    let job1 := { job0 with
      total := total, status := "procesando",
      message := s!"Procesando {total} productos..." }
    let out := importLoop gateway total rows 0 job1 store 0 0 0 []
    let jobF := { out.job with
      status := "completado", progress := 100,
      exitosos := out.exitosos, errores := out.errores,
      duplicados := out.duplicados,
      detalles_errores := out.detalles,
      message := "Procesamiento completado" }
    { trace := job0 :: job1 :: (out.trace ++ [jobF]), job := jobF,
      store := out.store }

/-- The Progress Registry: the module-level `upload_progress` dict,
every access guarded by `progress_lock` (`routes/products.py`
lines 24–26). -/
abbrev Registry := List (String × ImportJob)

/-- `upload_progress[upload_id] = {...}`: insert or overwrite one
entry. -/
def setEntry (reg : Registry) (uid : String) (job : ImportJob) : Registry :=
  if (List.find? (fun e => e.fst = uid) reg).isSome then
    List.map (fun e => if e.fst = uid then (uid, job) else e) reg
  else reg ++ [(uid, job)]

/-- The initial registry entry the upload endpoint writes before any
validation (`routes/products.py` lines 609–623). -/
def initialJob (uid username : String) : ImportJob :=
  { upload_id := uid, status := "iniciando", progress := 0, total := 0,
    procesados := 0, exitosos := 0, errores := 0, duplicados := 0,
    detalles_errores := [], message := "Iniciando carga...",
    username := username }

/-- The ways the upload request itself is rejected before hand-off
(`routes/products.py` lines 629–669): wrong extension, or a failure
while reading / validating the spreadsheet (the missing-columns
`HTTPException` is re-wrapped by the inner `except Exception` into the
`Error al leer Excel` 400, so both surface as `HTTPException`s). -/
inductive UploadReject where
  | badExtension
  | readOrColumnsError (detail : String)
deriving DecidableEq

/-- `upload_excel_async` (`routes/products.py` lines 596–707): generate
`upload_id`, create the registry entry, then validate; on any
`HTTPException` the handler sets the entry's status to `"error"` and
re-raises; on success the file is handed to the worker pool and the
request returns at once, leaving the entry in its initial state. -/
def upload_excel_async (reg : Registry) (uid username : String)
    (reject : Option UploadReject) : Registry × Except String String :=
  let reg1 := setEntry reg uid (initialJob uid username)
  match reject with
  | some r =>
    let reg2 : Registry := List.map (fun e =>
      if e.fst = uid then (e.fst, { e.snd with status := "error" }) else e) reg1
    (reg2, .error (match r with
      | .badExtension => "El archivo debe ser formato Excel (.xlsx o .xls)"
      | .readOrColumnsError d => s!"Error al leer Excel: {d}"))
  | none => (reg1, .ok uid)

/-- `get_upload_progress` (`routes/products.py` lines 720–733): under
`progress_lock`, 404 when the id is absent, otherwise a copy of the full
entry. -/
def get_upload_progress (reg : Registry) (uid : String) :
    Except String ImportJob :=
  match List.find? (fun e => e.fst = uid) reg with
  | none => .error "Upload no encontrado o expirado"
  | some e => .ok e.snd

/-! ## Helper lemmas -/

deriving instance DecidableEq for Except

/-- `validateItems` only succeeds by appending fully-validated items to
the accumulator, with the total advanced by exactly the sum of their
subtotals, each subtotal being `unit_price × quantity`. -/
lemma validateItems_ok_spec (db : DB) :
    ∀ (items : List SaleItemReq) (total : ℚ) (acc : List ValidatedItem)
      (v : List ValidatedItem) (t : ℚ),
      validateItems db items total acc = .ok (v, t) →
      ∃ w, v = acc ++ w ∧
        t = total + ((w.map (fun x => x.subtotal)).sum) ∧
        ∀ x ∈ w, x.subtotal = x.unit_price * (x.quantity : ℚ) := by
  intro items
  induction items with
  | nil =>
    intro total acc v t h
    simp only [validateItems, Except.ok.injEq, Prod.mk.injEq] at h
    refine ⟨[], by simp [h.1], by simp [h.2], by simp⟩
  | cons item rest ih =>
    intro total acc v t h
    unfold validateItems at h
    cases hc : itemCheck db item with
    | some e => rw [hc] at h; cases h
    | none =>
      rw [hc] at h
      obtain ⟨w, hw, ht, hsub⟩ := ih _ _ _ _ h
      refine ⟨⟨item.product_id, item.quantity, item.unit_price,
        item.unit_price * (item.quantity : ℚ)⟩ :: w, ?_, ?_, ?_⟩
      · simpa [List.append_assoc] using hw
      · rw [ht]; simp [List.sum_cons]; ring
      · intro x hx
        rcases List.mem_cons.mp hx with h1 | h2
        · subst h1; rfl
        · exact hsub x h2

/-- A failing `validateItems` run leaves the error as the only output. -/
lemma validateItems_first_error (db : DB) :
    ∀ (items : List SaleItemReq) (k : Nat) (total : ℚ)
      (acc : List ValidatedItem) (e : SaleErr) (hk : k < items.length),
      (∀ j (hj : j < k), itemCheck db (items.get ⟨j, hj.trans hk⟩) = none) →
      itemCheck db (items.get ⟨k, hk⟩) = some e →
      validateItems db items total acc = .error e := by
  intro items
  induction items with
  | nil => intro k total acc e hk; exact absurd hk (by simp)
  | cons item rest ih =>
    intro k total acc e hk hprev he
    cases k with
    | zero =>
      simp only [List.get] at he
      unfold validateItems
      rw [he]
    | succ k' =>
      have h0 : itemCheck db item = none := hprev 0 (Nat.succ_pos k')
      unfold validateItems
      rw [h0]
      exact ih k' _ _ e (Nat.lt_of_succ_lt_succ hk)
        (fun j hj => hprev (j + 1) (Nat.succ_lt_succ hj)) he

/-! ## C1 — atomicity of sale creation -/

/-- C1.  For every sale-creation request in which any item fails
validation (product not found, product inactive, or insufficient
stock), the whole transaction is rolled back: the post-state equals the
pre-state — no Sale row, no SaleItem rows, no stock change — regardless
of the failing item's position. -/
theorem create_sale_atomic_rollback (db : DB) (user_id : Nat)
    (sale : SaleCreateReq) (db' : DB) (e : SaleErr)
    (h : create_sale db user_id sale = (db', .error e)) :
    db' = db ∧ db'.sales = db.sales ∧ db'.sale_items = db.sale_items ∧
      db'.products = db.products := by
  unfold create_sale at h
  cases hv : validateItems db sale.items 0 [] with
  | error e2 =>
    rw [hv] at h
    simp only [Prod.mk.injEq] at h
    rw [← h.1]
    exact ⟨rfl, rfl, rfl, rfl⟩
  | ok pair =>
    rw [hv] at h
    simp at h

def c1db : DB :=
  { products := [], sales := [], sale_items := [], next_sale_id := 1 }

def c1req : SaleCreateReq :=
  { items := [{ product_id := 1, quantity := 1, unit_price := 1 }], notes := none }

/-- Witness for C1: a one-item request for a product that does not exist
fails and leaves the (empty) database untouched. -/
theorem create_sale_atomic_rollback_witness :
    (create_sale c1db 7 c1req).fst = c1db :=
  (create_sale_atomic_rollback c1db 7 c1req c1db (SaleErr.notFound 1)
    (by decide)).1

/-! ## C2 — the stock ≥ 0 invariant fails for duplicate items -/

def c2db : DB :=
  { products := [{ id := 1, name := "A", price := 1, stock := 1 }],
    sales := [], sale_items := [], next_sale_id := 1 }

def c2req : SaleCreateReq :=
  { items := [{ product_id := 1, quantity := 1, unit_price := 1 },
              { product_id := 1, quantity := 1, unit_price := 1 }],
    notes := none }

/-- C2 (code bug).  The spec's invariant `stock ≥ 0 at all times` is
violated by `create_sale`: each item is validated against a fresh read
of the product row, so a sale listing the same `product_id` twice passes
validation item-by-item against the same unchanged stock, and the
per-item decrements then drive the stock negative.  Concretely: one
product with `stock = 1`, a sale with two items of quantity 1 for it —
the sale is accepted and the final stock is `-1`. -/
theorem create_sale_negative_stock_bug :
    (create_sale c2db 7 c2req).snd = Except.ok 1 ∧
      (create_sale c2db 7 c2req).fst.products.map (fun p => p.stock) = [-1] := by
  constructor
  · rfl
  · rfl

/-! ## C3 — conservation of the sale total -/

/-- The stock-decrement loop touches only the `products` table. -/
lemma foldl_decStock_frame :
    ∀ (v : List ValidatedItem) (db : DB),
      (v.foldl (fun d x => decStock d x.product_id x.quantity) db).sales
          = db.sales ∧
        (v.foldl (fun d x => decStock d x.product_id x.quantity) db).sale_items
          = db.sale_items := by
  intro v
  induction v with
  | nil => intro db; exact ⟨rfl, rfl⟩
  | cons x xs ih =>
    intro db
    simpa [List.foldl_cons, decStock] using ih (decStock db x.product_id x.quantity)


/-- `find?` skips a prefix containing no match. -/
lemma find?_append_of_none {α : Type} (p : α → Bool) (l₁ l₂ : List α)
    (h : l₁.find? p = none) : (l₁ ++ l₂).find? p = l₂.find? p := by
  induction l₁ with
  | nil => simp
  | cons a as ih =>
    by_cases hp : p a = true
    · rw [List.find?_cons_of_pos _ hp] at h
      cases h
    · rw [List.find?_cons_of_neg _ hp] at h
      rw [List.cons_append, List.find?_cons_of_neg _ hp]
      exact ih h

/-- C3.  For every successfully created sale, the persisted
`total_amount` equals the sum over the sale's items of
`unit_price × quantity`, and each item's stored `subtotal` equals its
`unit_price × quantity`, all in exact decimal arithmetic.  The
freshness hypotheses state that the auto-increment id has not been used
by existing rows. -/
theorem create_sale_total_conservation (db : DB) (user_id : Nat)
    (sale : SaleCreateReq) (db' : DB) (sid : Nat)
    (hfresh_sales : ∀ s ∈ db.sales, s.id ≠ db.next_sale_id)
    (hfresh_items : ∀ it ∈ db.sale_items, it.sale_id ≠ db.next_sale_id)
    (h : create_sale db user_id sale = (db', .ok sid)) :
    ∃ saleRow,
      db'.sales.find? (fun s => s.id = sid) = some saleRow ∧
      saleRow.total_amount =
        ((db'.sale_items.filter (fun it => it.sale_id = sid)).map
          (fun it => it.unit_price * (it.quantity : ℚ))).sum ∧
      ∀ it ∈ db'.sale_items.filter (fun it => it.sale_id = sid),
        it.subtotal = it.unit_price * (it.quantity : ℚ) := by
  unfold create_sale at h
  cases hv : validateItems db sale.items 0 [] with
  | error e => rw [hv] at h; simp at h
  | ok pair =>
    obtain ⟨validated, total⟩ := pair
    rw [hv] at h
    simp only [Prod.mk.injEq, Except.ok.injEq] at h
    obtain ⟨hdb', hsid⟩ := h
    obtain ⟨w, hw, ht, hsub⟩ :=
      validateItems_ok_spec db sale.items 0 [] validated total hv
    simp only [List.nil_append] at hw
    rw [← hw] at ht hsub
    subst hdb'
    subst hsid
    obtain ⟨hsales, hitems⟩ := foldl_decStock_frame validated
      { db with
        sales := db.sales ++
          [{ id := db.next_sale_id, user_id := user_id, total_amount := total,
             status := "completed", notes := sale.notes }],
        sale_items := db.sale_items ++ validated.map (fun v =>
          { sale_id := db.next_sale_id, product_id := v.product_id,
            quantity := v.quantity, unit_price := v.unit_price,
            subtotal := v.subtotal }),
        next_sale_id := db.next_sale_id + 1 }
    refine ⟨{ id := db.next_sale_id, user_id := user_id, total_amount := total,
              status := "completed", notes := sale.notes }, ?_, ?_, ?_⟩
    · rw [hsales]
      have hnone : db.sales.find?
          (fun s => s.id = db.next_sale_id) = none := by
        rw [List.find?_eq_none]
        intro s hs
        simp [hfresh_sales s hs]
      rw [find?_append_of_none _ _ _ hnone]
      simp
    · rw [hitems]
      have hfil : db.sale_items.filter
          (fun it => it.sale_id = db.next_sale_id) = [] := by
        rw [List.filter_eq_nil_iff]
        intro it hit
        simp [hfresh_items it hit]
      rw [List.filter_append, hfil, List.nil_append]
      have hfil2 : (validated.map (fun v =>
            ({ sale_id := db.next_sale_id, product_id := v.product_id,
               quantity := v.quantity, unit_price := v.unit_price,
               subtotal := v.subtotal } : SaleItemRow))).filter
            (fun it => it.sale_id = db.next_sale_id)
          = validated.map (fun v =>
            ({ sale_id := db.next_sale_id, product_id := v.product_id,
               quantity := v.quantity, unit_price := v.unit_price,
               subtotal := v.subtotal } : SaleItemRow)) := by
        rw [List.filter_eq_self]
        intro it hit
        obtain ⟨v, _, rfl⟩ := List.mem_map.mp hit
        simp
      rw [hfil2, List.map_map, ht]
      have hmapeq : (validated.map (fun x => x.subtotal))
          = validated.map ((fun it : SaleItemRow =>
              it.unit_price * (it.quantity : ℚ)) ∘ (fun v : ValidatedItem =>
                ({ sale_id := db.next_sale_id, product_id := v.product_id,
                   quantity := v.quantity, unit_price := v.unit_price,
                   subtotal := v.subtotal } : SaleItemRow))) := by
        apply List.map_congr_left
        intro v hv2
        simpa using hsub v hv2
      rw [← hmapeq]
      simp
    · rw [hitems]
      intro it hit
      rw [List.filter_append] at hit
      rcases List.mem_append.mp hit with h1 | h2
      · have hmem := List.mem_of_mem_filter h1
        have hpred := List.of_mem_filter h1
        simp only [decide_eq_true_eq] at hpred
        exact absurd hpred (hfresh_items it hmem)
      · have hmem := List.mem_of_mem_filter h2
        obtain ⟨v, hv3, rfl⟩ := List.mem_map.mp hmem
        simpa using hsub v hv3

def c3db : DB :=
  { products := [{ id := 1, name := "A", price := 3/2, stock := 5 }],
    sales := [], sale_items := [], next_sale_id := 1 }

def c3req : SaleCreateReq :=
  { items := [{ product_id := 1, quantity := 2, unit_price := 3/2 },
              { product_id := 1, quantity := 1, unit_price := 2 }],
    notes := none }

/-- Witness for C3: a two-item sale on a fresh database; the created
sale's `total_amount` is the exact sum of its items' subtotals. -/
theorem create_sale_total_conservation_witness :
    ∃ saleRow,
      (create_sale c3db 7 c3req).fst.sales.find? (fun s => s.id = 1)
          = some saleRow ∧
      saleRow.total_amount =
        (((create_sale c3db 7 c3req).fst.sale_items.filter
            (fun it => it.sale_id = 1)).map
          (fun it => it.unit_price * (it.quantity : ℚ))).sum ∧
      ∀ it ∈ (create_sale c3db 7 c3req).fst.sale_items.filter
          (fun it => it.sale_id = 1),
        it.subtotal = it.unit_price * (it.quantity : ℚ) :=
  create_sale_total_conservation c3db 7 c3req (create_sale c3db 7 c3req).fst 1
    (by decide) (by decide)
    (by
      have hsnd : (create_sale c3db 7 c3req).snd = Except.ok 1 := by decide
      rw [← hsnd])

/-! ## C4 — per-item validation order and first-failure abort -/

/-- C4.  Items are processed in input order; if every item before
position `k` validates and item `k` fails its first check, `create_sale`
returns exactly that check's error — NotFound when the product id
matches no row, then InvalidState when the product is inactive, then
InsufficientStock when `stock < quantity` (the order is fixed by
`itemCheck`) — with the whole state unchanged, and the
InsufficientStock detail reports available versus requested quantity. -/
theorem create_sale_first_failure (db : DB) (user_id : Nat)
    (sale : SaleCreateReq) (k : Nat) (e : SaleErr)
    (hk : k < sale.items.length)
    (hprev : ∀ j (hj : j < k), itemCheck db (sale.items.get ⟨j, hj.trans hk⟩) = none)
    (he : itemCheck db (sale.items.get ⟨k, hk⟩) = some e) :
    create_sale db user_id sale = (db, .error e) ∧
      (∀ (n : String) (avail : Int) (reqd : Nat),
        (SaleErr.insufficientStock n avail reqd).detail =
          "Stock insuficiente para \x27" ++ n ++ "\x27. Disponible: " ++
            toString avail ++ ", Solicitado: " ++ toString reqd) := by
  constructor
  · unfold create_sale
    rw [validateItems_first_error db sale.items k 0 [] e hk hprev he]
  · intro n avail reqd
    simp [SaleErr.detail, String.append_assoc, String.append_empty, toString]

def c4db : DB :=
  { products := [{ id := 1, name := "A", price := 1, stock := 10 }],
    sales := [], sale_items := [], next_sale_id := 1 }

def c4reqTen : SaleCreateReq :=
  { items := [{ product_id := 1, quantity := 10, unit_price := 1 }], notes := none }

def c4req1 : SaleCreateReq :=
  { items := [{ product_id := 1, quantity := 1, unit_price := 1 }], notes := none }

/-- Witness for C4, the spec scenario: stock 10, selling 10 succeeds and
leaves stock 0; selling one more unit fails with InsufficientStock
reporting `Disponible: 0, Solicitado: 1`. -/
theorem create_sale_first_failure_witness :
    ((create_sale c4db 7 c4reqTen).fst.products.map (fun p => p.stock) = [0]) ∧
    create_sale (create_sale c4db 7 c4reqTen).fst 7 c4req1 =
      ((create_sale c4db 7 c4reqTen).fst,
        .error (SaleErr.insufficientStock "A" 0 1)) ∧
    (SaleErr.insufficientStock "A" 0 1).detail =
      "Stock insuficiente para \x27A\x27. Disponible: 0, Solicitado: 1" :=
  ⟨by decide,
   (create_sale_first_failure (create_sale c4db 7 c4reqTen).fst 7 c4req1 0
      (SaleErr.insufficientStock "A" 0 1) (by decide)
      (by intro j hj; exact absurd hj (Nat.not_lt_zero j)) (by decide)).1,
   by decide⟩

/-! ## C5 / C6 — sale cancellation -/

/-- The stock-restore loop touches only the `products` table. -/
lemma foldl_incStock_frame :
    ∀ (its : List SaleItemRow) (db : DB),
      (its.foldl (fun d it => incStock d it.product_id it.quantity) db).sales
          = db.sales ∧
        (its.foldl (fun d it => incStock d it.product_id it.quantity) db).sale_items
          = db.sale_items := by
  intro its
  induction its with
  | nil => intro db; exact ⟨rfl, rfl⟩
  | cons x xs ih =>
    intro db
    simpa [List.foldl_cons, incStock] using ih (incStock db x.product_id x.quantity)

/-- Folding `incStock` over a list of sale items adds, to each product,
the sum of the quantities of the items referencing it — an additive
update of whatever the current stock is. -/
lemma foldl_incStock_products :
    ∀ (its : List SaleItemRow) (db : DB),
      (its.foldl (fun d it => incStock d it.product_id it.quantity) db).products
        = db.products.map (fun p =>
            { p with stock := p.stock +
                ((its.filter (fun it => it.product_id = p.id)).map
                  (fun it => (it.quantity : Int))).sum }) := by
  intro its
  induction its with
  | nil =>
    intro db
    simp only [List.foldl_nil, List.filter_nil, List.map_nil, List.sum_nil,
      add_zero]
    exact (List.map_id db.products).symm
  | cons x xs ih =>
    intro db
    rw [List.foldl_cons, ih (incStock db x.product_id x.quantity)]
    show (db.products.map (fun p =>
        if p.id = x.product_id then { p with stock := p.stock + (x.quantity : Int) }
        else p)).map _ = _
    rw [List.map_map]
    apply List.map_congr_left
    intro p _
    by_cases hid : p.id = x.product_id
    · have hxp : x.product_id = p.id := hid.symm
      simp only [Function.comp, if_pos hid, List.filter_cons, hxp]
      simp [add_assoc]
    · have hxp : ¬(x.product_id = p.id) := fun hc => hid hc.symm
      simp only [Function.comp, if_neg hid, List.filter_cons]
      simp [hxp]

/-- The sale-status update of `cancel_sale` maps the found sale to its
cancelled copy under `find?`. -/
lemma find?_map_cancelStatus (sid : Nat) :
    ∀ (l : List SaleRow) (sale : SaleRow),
      l.find? (fun s => s.id = sid) = some sale →
      (l.map (fun s =>
          if s.id = sid then { s with status := "cancelled" } else s)).find?
          (fun s => s.id = sid)
        = some { sale with status := "cancelled" } := by
  intro l
  induction l with
  | nil => intro sale h; cases h
  | cons a as ih =>
    intro sale h
    by_cases pa : a.id = sid
    · rw [List.find?_cons_of_pos _ (by simpa using pa)] at h
      rw [List.map_cons, if_pos pa]
      rw [List.find?_cons_of_pos _ (by simpa using pa)]
      cases h
      rfl
    · rw [List.find?_cons_of_neg _ (by simpa using pa)] at h
      rw [List.map_cons, if_neg pa]
      rw [List.find?_cons_of_neg _ (by simpa using pa)]
      exact ih sale h

/-- Full post-state of a successful `cancel_sale`: items untouched,
stocks additively restored, sales mapped to cancelled status. -/
lemma cancel_sale_success_state (db : DB) (sid : Nat) (sale : SaleRow)
    (hfind : db.sales.find? (fun s => s.id = sid) = some sale)
    (hst : ¬sale.status = "cancelled") :
    (cancel_sale db sid).snd = .ok () ∧
    (cancel_sale db sid).fst.sale_items = db.sale_items ∧
    (cancel_sale db sid).fst.products = db.products.map (fun p =>
      { p with stock := p.stock +
          (((db.sale_items.filter (fun it => it.sale_id = sid)).filter
              (fun it => it.product_id = p.id)).map
            (fun it => (it.quantity : Int))).sum }) ∧
    (cancel_sale db sid).fst.sales = db.sales.map (fun s =>
      if s.id = sid then { s with status := "cancelled" } else s) := by
  unfold cancel_sale
  rw [hfind]
  dsimp only
  rw [if_neg hst]
  refine ⟨rfl, ?_, ?_, ?_⟩
  · exact (foldl_incStock_frame _ db).2
  · exact foldl_incStock_products _ db
  · show (List.foldl _ db _).sales.map _ = _
    rw [(foldl_incStock_frame _ db).1]

/-- C5.  Cancelling an existing, not-yet-cancelled sale adds each of its
SaleItems' quantities back onto the product's *current* stock (an
additive update, the exact inverse of the decrements at creation,
whatever the stock is now), sets the sale's status to `cancelled`, and
changes nothing else: no SaleItem row is deleted or modified and every
sale's `total_amount` — including the cancelled one's — is unchanged. -/
theorem cancel_sale_inverse (db : DB) (sid : Nat) (sale : SaleRow)
    (hfind : db.sales.find? (fun s => s.id = sid) = some sale)
    (hst : ¬sale.status = "cancelled") :
    (cancel_sale db sid).snd = .ok () ∧
    (cancel_sale db sid).fst.sale_items = db.sale_items ∧
    (cancel_sale db sid).fst.products = db.products.map (fun p =>
      { p with stock := p.stock +
          (((db.sale_items.filter (fun it => it.sale_id = sid)).filter
              (fun it => it.product_id = p.id)).map
            (fun it => (it.quantity : Int))).sum }) ∧
    (cancel_sale db sid).fst.sales = db.sales.map (fun s =>
      if s.id = sid then { s with status := "cancelled" } else s) ∧
    (cancel_sale db sid).fst.sales.map (fun s => s.total_amount)
      = db.sales.map (fun s => s.total_amount) := by
  obtain ⟨h1, h2, h3, h4⟩ := cancel_sale_success_state db sid sale hfind hst
  refine ⟨h1, h2, h3, h4, ?_⟩
  rw [h4, List.map_map]
  apply List.map_congr_left
  intro s _
  by_cases hs : s.id = sid
  · simp [Function.comp, hs]
  · simp [Function.comp, hs]

def c5db : DB :=
  { products := [{ id := 1, name := "A", price := 1, stock := 9 }],
    sales := [{ id := 1, user_id := 7, total_amount := 3, status := "completed",
                notes := none }],
    sale_items := [{ sale_id := 1, product_id := 1, quantity := 2,
                     unit_price := 3/2, subtotal := 3 }],
    next_sale_id := 2 }

/-- Witness for C5: cancelling sale 1 restores the 2 units onto the
current stock 9 (→ 11), keeps the items and the total, and flips the
status. -/
theorem cancel_sale_inverse_witness :
    (cancel_sale c5db 1).snd = .ok () ∧
    (cancel_sale c5db 1).fst.sale_items = c5db.sale_items ∧
    (cancel_sale c5db 1).fst.products = c5db.products.map (fun p =>
      { p with stock := p.stock +
          (((c5db.sale_items.filter (fun it => it.sale_id = 1)).filter
              (fun it => it.product_id = p.id)).map
            (fun it => (it.quantity : Int))).sum }) ∧
    (cancel_sale c5db 1).fst.sales = c5db.sales.map (fun s =>
      if s.id = 1 then { s with status := "cancelled" } else s) ∧
    (cancel_sale c5db 1).fst.sales.map (fun s => s.total_amount)
      = c5db.sales.map (fun s => s.total_amount) :=
  cancel_sale_inverse c5db 1
    { id := 1, user_id := 7, total_amount := 3, status := "completed",
      notes := none }
    (by decide) (by decide)

/-- C6.  `cancel_sale` fails with NotFound when no sale has the id and
with InvalidState when the sale is already cancelled, leaving the state
unchanged in both cases; and immediately re-cancelling a just-cancelled
sale always fails with InvalidState on the unchanged state — stock is
never restored twice, however often cancellation is retried. -/
theorem cancel_sale_guards (db : DB) (sid : Nat) :
    (db.sales.find? (fun s => s.id = sid) = none →
      cancel_sale db sid = (db, .error (.notFound sid))) ∧
    (∀ sale, db.sales.find? (fun s => s.id = sid) = some sale →
      sale.status = "cancelled" →
      cancel_sale db sid = (db, .error .alreadyCancelled)) ∧
    (∀ sale, db.sales.find? (fun s => s.id = sid) = some sale →
      ¬sale.status = "cancelled" →
      cancel_sale (cancel_sale db sid).fst sid
        = ((cancel_sale db sid).fst, .error .alreadyCancelled)) := by
  refine ⟨?_, ?_, ?_⟩
  · intro hnone
    unfold cancel_sale
    rw [hnone]
  · intro sale hfind hcanc
    unfold cancel_sale
    rw [hfind]
    dsimp only
    rw [if_pos hcanc]
  · intro sale hfind hst
    have hsales := (cancel_sale_success_state db sid sale hfind hst).2.2.2
    have hfind2 := find?_map_cancelStatus sid db.sales sale hfind
    rw [← hsales] at hfind2
    generalize (cancel_sale db sid).fst = db' at hfind2 ⊢
    unfold cancel_sale
    rw [hfind2]
    dsimp only
    rw [if_pos rfl]

def c6db : DB :=
  { products := [{ id := 1, name := "A", price := 1, stock := 9 }],
    sales := [{ id := 1, user_id := 7, total_amount := 3, status := "completed",
                notes := none }],
    sale_items := [{ sale_id := 1, product_id := 1, quantity := 2,
                     unit_price := 3/2, subtotal := 3 }],
    next_sale_id := 2 }

/-- Witness for C6: cancelling a missing sale id fails with NotFound and
changes nothing; re-cancelling a just-cancelled sale fails with
InvalidState on the unchanged state. -/
theorem cancel_sale_guards_witness :
    cancel_sale c6db 5 = (c6db, .error (.notFound 5)) ∧
    cancel_sale (cancel_sale c6db 1).fst 1
      = ((cancel_sale c6db 1).fst, .error .alreadyCancelled) :=
  ⟨(cancel_sale_guards c6db 5).1 (by decide),
   (cancel_sale_guards c6db 1).2.2
     { id := 1, user_id := 7, total_amount := 3, status := "completed",
       notes := none }
     (by decide) (by decide)⟩

/-! ## C7 — bulk-import row classification -/

/-- Spec-side classifier: the row's name is empty (absent cell, or blank
after trimming). -/
def specNameEmpty (row : ExcelRow) : Prop :=
  row.nombre.map pyStrip = none ∨ row.nombre.map pyStrip = some ""

/-- Spec-side classifier: the row's price is missing or non-positive. -/
def specPriceBad (row : ExcelRow) : Prop :=
  row.precio = none ∨ ∃ p, row.precio = some p ∧ p ≤ 0

/-- Spec-side classifier: the row's stock is negative (absent defaults
to 0). -/
def specStockNeg (row : ExcelRow) : Prop := row.stockVal.getD 0 < 0

/-- Spec-side classifier: the row's sku is present (non-blank) and a
product with that sku already exists in the store. -/
def specSkuDup (store : List Product) (row : ExcelRow) : Prop :=
  ∃ s, row.sku.map pyStrip = some s ∧ s ≠ "" ∧ ∃ p ∈ store, p.sku = some s

/-- The boolean sku test of `processRowData` decides `specSkuDup`. -/
lemma skuDup_iff (store : List Product) (row : ExcelRow) :
    ((match row.sku.map pyStrip with
      | some s => !(s == "") && store.any (fun p => p.sku == some s)
      | none => false) = true) ↔ specSkuDup store row := by
  cases h : row.sku.map pyStrip with
  | none => simp [specSkuDup, h]
  | some s =>
    simp [specSkuDup, h, List.any_eq_true]

/-- The row loop bumps exactly one of the three counters per row and
never lets the recorded error list grow past 10. -/
lemma importLoop_counters (g : Nat → Bool) (total : Nat) :
    ∀ (rows : List ExcelRow) (i : Nat) (job : ImportJob)
      (store : List Product) (ex er du : Nat) (det : List String),
      (importLoop g total rows i job store ex er du det).exitosos +
          (importLoop g total rows i job store ex er du det).errores +
          (importLoop g total rows i job store ex er du det).duplicados
        = ex + er + du + rows.length ∧
      (det.length ≤ 10 →
        (importLoop g total rows i job store ex er du det).detalles.length ≤ 10) := by
  intro rows
  induction rows with
  | nil => intro i job store ex er du det; exact ⟨rfl, fun h => h⟩
  | cons row rest ih =>
    intro i job store ex er du det
    simp only [importLoop]
    rcases processRowData store row i (g i) with ⟨res, store1⟩
    dsimp only
    cases res with
    | success n =>
      dsimp only
      refine ⟨?_, ?_⟩
      · rw [(ih (i + 1) _ store1 (ex + 1) er du det).1, List.length_cons]
        omega
      · exact fun h10 => (ih (i + 1) _ store1 (ex + 1) er du det).2 h10
    | failure msg n =>
      dsimp only
      refine ⟨?_, ?_⟩
      · rw [(ih (i + 1) _ store1 ex (er + 1) du
            (if det.length < 10 then det ++ [msg] else det)).1, List.length_cons]
        omega
      · intro h10
        apply (ih (i + 1) _ store1 ex (er + 1) du
          (if det.length < 10 then det ++ [msg] else det)).2
        by_cases hlen : det.length < 10
        · rw [if_pos hlen]
          simp only [List.length_append, List.length_cons, List.length_nil]
          omega
        · rw [if_neg hlen]; exact h10
    | dupSku msg n =>
      dsimp only
      refine ⟨?_, ?_⟩
      · rw [(ih (i + 1) _ store1 ex er (du + 1) det).1, List.length_cons]
        omega
      · exact fun h10 => (ih (i + 1) _ store1 ex er (du + 1) det).2 h10

/-- A present positive price defeats `specPriceBad`. -/
lemma not_specPriceBad (row : ExcelRow) (p : ℚ) (hpre : row.precio = some p)
    (h2 : ¬p ≤ 0) : ¬specPriceBad row := by
  rintro (h | ⟨q, hq, hq0⟩)
  · rw [hpre] at h; cases h
  · rw [hpre] at hq
    injection hq with hq
    exact h2 (hq ▸ hq0)

/-- C7.  A bulk-import row increments the failure counter iff its name
is empty, its price is missing or non-positive, its stock is negative,
or (all validations passing, no duplicate sku) the insert itself fails;
it counts as a duplicate — skipped, not a failure — iff it passes those
validations and its sku is present and already in the store; otherwise
it is inserted as a new Product with `is_active = true`.  At file level
the recorded error list never exceeds 10 entries and every row bumps
exactly one of the three counters. -/
theorem process_excel_row_classification (store : List Product)
    (row : ExcelRow) (i : Nat) (g : Bool) :
    ((∃ m n, (processRowData store row i g).fst = .failure m n) ↔
      (specNameEmpty row ∨ specPriceBad row ∨ specStockNeg row ∨
        (¬specNameEmpty row ∧ ¬specPriceBad row ∧ ¬specStockNeg row ∧
          ¬specSkuDup store row ∧ g = false))) ∧
    ((∃ m n, (processRowData store row i g).fst = .dupSku m n) ↔
      (¬specNameEmpty row ∧ ¬specPriceBad row ∧ ¬specStockNeg row ∧
        specSkuDup store row)) ∧
    ((¬specNameEmpty row ∧ ¬specPriceBad row ∧ ¬specStockNeg row ∧
        ¬specSkuDup store row ∧ g = true) →
      ∃ p, processRowData store row i g = (.success p.name, store ++ [p]) ∧
        p.is_active = true) ∧
    (∀ (gateway : Nat → Bool) (rows : List ExcelRow) (job0 : ImportJob)
        (msg : String),
      (process_excel_file_sync store gateway rows job0 true
          msg).job.detalles_errores.length ≤ 10 ∧
      (process_excel_file_sync store gateway rows job0 true msg).job.exitosos +
          (process_excel_file_sync store gateway rows job0 true msg).job.errores +
          (process_excel_file_sync store gateway rows job0 true
            msg).job.duplicados
        = rows.length) := by
  have habc :
      ((∃ m n, (processRowData store row i g).fst = .failure m n) ↔
        (specNameEmpty row ∨ specPriceBad row ∨ specStockNeg row ∨
          (¬specNameEmpty row ∧ ¬specPriceBad row ∧ ¬specStockNeg row ∧
            ¬specSkuDup store row ∧ g = false))) ∧
      ((∃ m n, (processRowData store row i g).fst = .dupSku m n) ↔
        (¬specNameEmpty row ∧ ¬specPriceBad row ∧ ¬specStockNeg row ∧
          specSkuDup store row)) ∧
      ((¬specNameEmpty row ∧ ¬specPriceBad row ∧ ¬specStockNeg row ∧
          ¬specSkuDup store row ∧ g = true) →
        ∃ p, processRowData store row i g = (.success p.name, store ++ [p]) ∧
          p.is_active = true) := by
    simp only [processRowData]
    by_cases h1 : row.nombre.map pyStrip = none ∨
        row.nombre.map pyStrip = some ""
    · rw [if_pos h1]
      refine ⟨⟨fun _ => Or.inl h1, fun _ => ⟨_, _, rfl⟩⟩, ?_, ?_⟩
      · constructor
        · rintro ⟨m, n, h⟩; cases h
        · rintro ⟨hn, _⟩; exact absurd h1 hn
      · rintro ⟨hn, _⟩; exact absurd h1 hn
    · rw [if_neg h1]
      cases hpre : row.precio with
      | none =>
        refine ⟨⟨fun _ => Or.inr (Or.inl (Or.inl hpre)), fun _ => ⟨_, _, rfl⟩⟩,
          ?_, ?_⟩
        · constructor
          · rintro ⟨m, n, h⟩; cases h
          · rintro ⟨_, hp, _⟩; exact absurd (Or.inl hpre) hp
        · rintro ⟨_, hp, _⟩; exact absurd (Or.inl hpre) hp
      | some p =>
        dsimp only
        by_cases h2 : p ≤ 0
        · rw [if_pos h2]
          refine ⟨⟨fun _ => Or.inr (Or.inl (Or.inr ⟨p, hpre, h2⟩)),
            fun _ => ⟨_, _, rfl⟩⟩, ?_, ?_⟩
          · constructor
            · rintro ⟨m, n, h⟩; cases h
            · rintro ⟨_, hp, _⟩; exact absurd (Or.inr ⟨p, hpre, h2⟩) hp
          · rintro ⟨_, hp, _⟩; exact absurd (Or.inr ⟨p, hpre, h2⟩) hp
        · rw [if_neg h2]
          by_cases h3 : row.stockVal.getD 0 < 0
          · rw [if_pos h3]
            refine ⟨⟨fun _ => Or.inr (Or.inr (Or.inl h3)),
              fun _ => ⟨_, _, rfl⟩⟩, ?_, ?_⟩
            · constructor
              · rintro ⟨m, n, h⟩; cases h
              · rintro ⟨_, _, hs, _⟩; exact absurd h3 hs
            · rintro ⟨_, _, hs, _⟩; exact absurd h3 hs
          · rw [if_neg h3]
            by_cases h4 : (match row.sku.map pyStrip with
                | some s => !(s == "") && store.any (fun q => q.sku == some s)
                | none => false) = true
            · rw [if_pos h4]
              have hdup := (skuDup_iff store row).mp h4
              refine ⟨?_, ?_, ?_⟩
              · constructor
                · rintro ⟨m, n, h⟩; cases h
                · rintro (hA | hB | hC | ⟨_, _, _, hD, _⟩)
                  · exact absurd hA h1
                  · exact absurd hB (not_specPriceBad row p hpre h2)
                  · exact absurd hC h3
                  · exact absurd hdup hD
              · exact ⟨fun _ => ⟨h1, not_specPriceBad row p hpre h2, h3, hdup⟩,
                  fun _ => ⟨_, _, rfl⟩⟩
              · rintro ⟨_, _, _, hD, _⟩; exact absurd hdup hD
            · rw [if_neg h4]
              have hnodup : ¬specSkuDup store row :=
                fun hd => h4 ((skuDup_iff store row).mpr hd)
              by_cases h5 : g = true
              · rw [if_pos h5]
                refine ⟨?_, ?_, ?_⟩
                · constructor
                  · rintro ⟨m, n, h⟩; cases h
                  · rintro (hA | hB | hC | ⟨_, _, _, _, hg⟩)
                    · exact absurd hA h1
                    · exact absurd hB (not_specPriceBad row p hpre h2)
                    · exact absurd hC h3
                    · rw [h5] at hg; cases hg
                · constructor
                  · rintro ⟨m, n, h⟩; cases h
                  · rintro ⟨_, _, _, hD⟩; exact absurd hD hnodup
                · intro _
                  exact ⟨{ id := store.length + 1,
                           name := (row.nombre.map pyStrip).getD "",
                           description := row.descripcion.map pyStrip,
                           sku := row.sku.map pyStrip, price := p,
                           stock := row.stockVal.getD 0,
                           min_stock := row.minStockVal.getD 5,
                           category_id := row.categoria,
                           is_active := true }, rfl, rfl⟩
              · rw [if_neg h5]
                refine ⟨?_, ?_, ?_⟩
                · constructor
                  · intro _
                    exact Or.inr (Or.inr (Or.inr
                      ⟨h1, not_specPriceBad row p hpre h2, h3, hnodup,
                        Bool.eq_false_iff.mpr h5 ▸ rfl⟩))
                  · intro _; exact ⟨_, _, rfl⟩
                · constructor
                  · rintro ⟨m, n, h⟩; cases h
                  · rintro ⟨_, _, _, hD⟩; exact absurd hD hnodup
                · rintro ⟨_, _, _, _, hg⟩; exact absurd hg h5
  refine ⟨habc.1, habc.2.1, habc.2.2, ?_⟩
  intro gateway rows job0 msg
  simp only [process_excel_file_sync]
  rw [if_neg (by simp)]
  dsimp only
  obtain ⟨hc, hd⟩ := importLoop_counters gateway rows.length rows 0 _ store 0 0 0 []
  constructor
  · exact hd (by simp)
  · simpa using hc

instance (row : ExcelRow) : Decidable (specNameEmpty row) := by
  unfold specNameEmpty; infer_instance

instance (row : ExcelRow) : Decidable (specStockNeg row) := by
  unfold specStockNeg; infer_instance

def c7store : List Product :=
  [{ id := 1, name := "Viejo", sku := some "S", price := 1, stock := 0 }]

def c7rowDup : ExcelRow :=
  { nombre := some "Nuevo", sku := some "S", precio := some 5,
    stockVal := some 3, minStockVal := none, categoria := none,
    descripcion := none }

def c7rowOk : ExcelRow :=
  { nombre := some "Nuevo", sku := none, precio := some 5,
    stockVal := some 3, minStockVal := none, categoria := none,
    descripcion := none }

/-- Witness for C7: a valid row whose sku already exists is classified
as a duplicate (not a failure); the same row without a sku is inserted
as an active product. -/
theorem process_excel_row_classification_witness :
    (∃ m n, (processRowData c7store c7rowDup 0 true).fst = .dupSku m n) ∧
    (∃ p, processRowData c7store c7rowOk 0 true
        = (.success p.name, c7store ++ [p]) ∧ p.is_active = true) :=
  ⟨(process_excel_row_classification c7store c7rowDup 0 true).2.1.mpr
    ⟨by decide,
     not_specPriceBad c7rowDup 5 rfl (by norm_num),
     by decide,
     ⟨"S", by decide, by decide,
      ⟨{ id := 1, name := "Viejo", sku := some "S", price := 1, stock := 0 },
       by simp [c7store], rfl⟩⟩⟩,
   (process_excel_row_classification c7store c7rowOk 0 true).2.2.1
    ⟨by decide,
     not_specPriceBad c7rowOk 5 rfl (by norm_num),
     by decide,
     by rintro ⟨s, hs, _, _⟩; simp [c7rowOk, specSkuDup] at hs,
     rfl⟩⟩

/-! ## C8 / C9 — registry trace of an import run -/

/-- Each registry state written by the row loop: the `k`-th write
carries `procesados = i + k + 1` and the matching percentage, and leaves
the success/failure/duplicate counters exactly as they were when the
loop started. -/
lemma importLoop_trace_spec (g : Nat → Bool) (total : Nat) :
    ∀ (rows : List ExcelRow) (i : Nat) (job : ImportJob)
      (store : List Product) (ex er du : Nat) (det : List String)
      (d : ImportJob),
      (importLoop g total rows i job store ex er du det).trace.length
          = rows.length ∧
      ∀ k, k < rows.length →
        (((importLoop g total rows i job store ex er du det).trace.getD k
            d).procesados = i + k + 1) ∧
        (((importLoop g total rows i job store ex er du det).trace.getD k
            d).progress = pct (i + k + 1) total) ∧
        (((importLoop g total rows i job store ex er du det).trace.getD k
            d).exitosos = job.exitosos) ∧
        (((importLoop g total rows i job store ex er du det).trace.getD k
            d).errores = job.errores) ∧
        (((importLoop g total rows i job store ex er du det).trace.getD k
            d).duplicados = job.duplicados) := by
  intro rows
  induction rows with
  | nil =>
    intro i job store ex er du det d
    exact ⟨rfl, fun k hk => absurd hk (by simp)⟩
  | cons row rest ih =>
    intro i job store ex er du det d
    simp only [importLoop]
    rcases processRowData store row i (g i) with ⟨res, store1⟩
    dsimp only
    cases res with
    | success n =>
      dsimp only
      refine ⟨?_, ?_⟩
      · rw [List.length_cons, (ih (i + 1) _ store1 _ _ _ _ d).1]
        rfl
      · intro k hk
        cases k with
        | zero => exact ⟨rfl, rfl, rfl, rfl, rfl⟩
        | succ k' =>
          rw [List.length_cons] at hk
          have hk' : k' < rest.length := by omega
          have h := (ih (i + 1) { job with
              procesados := i + 1, progress := pct (i + 1) total,
              message := s!"Procesando producto {i + 1} de {total}" } store1 (ex + 1) er du det d).2 k' hk'
          simp only [List.getD_cons_succ]
          refine ⟨?_, ?_, ?_, ?_, ?_⟩
          · rw [h.1]; omega
          · rw [h.2.1]; congr 1; omega
          · exact h.2.2.1
          · exact h.2.2.2.1
          · exact h.2.2.2.2
    | failure msg n =>
      dsimp only
      refine ⟨?_, ?_⟩
      · rw [List.length_cons, (ih (i + 1) _ store1 _ _ _ _ d).1]
        rfl
      · intro k hk
        cases k with
        | zero => exact ⟨rfl, rfl, rfl, rfl, rfl⟩
        | succ k' =>
          rw [List.length_cons] at hk
          have hk' : k' < rest.length := by omega
          have h := (ih (i + 1) { job with
              procesados := i + 1, progress := pct (i + 1) total,
              message := s!"Procesando producto {i + 1} de {total}" } store1 ex (er + 1) du
            (if det.length < 10 then det ++ [msg] else det) d).2 k' hk'
          simp only [List.getD_cons_succ]
          refine ⟨?_, ?_, ?_, ?_, ?_⟩
          · rw [h.1]; omega
          · rw [h.2.1]; congr 1; omega
          · exact h.2.2.1
          · exact h.2.2.2.1
          · exact h.2.2.2.2
    | dupSku msg n =>
      dsimp only
      refine ⟨?_, ?_⟩
      · rw [List.length_cons, (ih (i + 1) _ store1 _ _ _ _ d).1]
        rfl
      · intro k hk
        cases k with
        | zero => exact ⟨rfl, rfl, rfl, rfl, rfl⟩
        | succ k' =>
          rw [List.length_cons] at hk
          have hk' : k' < rest.length := by omega
          have h := (ih (i + 1) { job with
              procesados := i + 1, progress := pct (i + 1) total,
              message := s!"Procesando producto {i + 1} de {total}" } store1 ex er (du + 1) det d).2 k' hk'
          simp only [List.getD_cons_succ]
          refine ⟨?_, ?_, ?_, ?_, ?_⟩
          · rw [h.1]; omega
          · rw [h.2.1]; congr 1; omega
          · exact h.2.2.1
          · exact h.2.2.2.1
          · exact h.2.2.2.2

/-- `getD` reads inside the left part of an append. -/
lemma getD_append_left {α : Type} :
    ∀ (l : List α) (l' : List α) (d : α) (n : Nat), n < l.length →
      (l ++ l').getD n d = l.getD n d := by
  intro l
  induction l with
  | nil => intro l' d n h; exact absurd h (by simp)
  | cons a as ih =>
    intro l' d n h
    cases n with
    | zero => rfl
    | succ n' =>
      simp only [List.cons_append, List.getD_cons_succ]
      exact ih l' d n' (by simpa using Nat.lt_of_succ_lt_succ h)

/-- `getD` at the length of the left part reads the right part's head. -/
lemma getD_append_firstRight {α : Type} :
    ∀ (l : List α) (l' : List α) (d : α),
      (l ++ l').getD l.length d = l'.getD 0 d := by
  intro l
  induction l with
  | nil => intro l' d; rfl
  | cons a as ih => intro l' d; simpa using ih l' d

/-- `rne` never rounds below the floor. -/
lemma rne_floor_le (x : ℚ) : ⌊x⌋ ≤ rne x := by
  unfold rne
  split_ifs <;> omega

/-- `rne` never rounds above the ceiling. -/
lemma rne_le_floor_add_one (x : ℚ) : rne x ≤ ⌊x⌋ + 1 := by
  unfold rne
  split_ifs <;> omega

/-- Integers are fixed by `rne`. -/
lemma rne_intCast (k : Int) : rne (k : ℚ) = k := by
  unfold rne
  rw [Int.floor_intCast]
  rw [if_pos (by norm_num)]

/-- Round half to even is monotone. -/
lemma rne_mono {x y : ℚ} (h : x ≤ y) : rne x ≤ rne y := by
  by_cases hf : ⌊x⌋ < ⌊y⌋
  · calc rne x ≤ ⌊x⌋ + 1 := rne_le_floor_add_one x
      _ ≤ ⌊y⌋ := by omega
      _ ≤ rne y := rne_floor_le y
  · have hfe : ⌊x⌋ = ⌊y⌋ := le_antisymm (Int.floor_mono h) (not_lt.mp hf)
    have hfr : x - (⌊y⌋ : ℚ) ≤ y - (⌊y⌋ : ℚ) := by linarith
    unfold rne
    rw [hfe]
    split_ifs <;> first | omega | (exfalso; linarith)

/-- A positive rational rounds into (the closure of) its own binade. -/
lemma roundNear53_pos_spec (q : ℚ) (hq : 0 < q) :
    (2 : ℚ) ^ Int.log 2 q ≤ roundNear53 q ∧
      roundNear53 q ≤ (2 : ℚ) ^ (Int.log 2 q + 1) := by
  have h2 : ((2 : ℕ) : ℚ) = (2 : ℚ) := by norm_num
  have h2ne : (2 : ℚ) ≠ 0 := by norm_num
  set e := Int.log 2 q with he
  have hlo : (2 : ℚ) ^ e ≤ q := by
    rw [← h2]; exact Int.zpow_log_le_self (by norm_num) hq
  have hhi : q < (2 : ℚ) ^ (e + 1) := by
    rw [← h2]; exact Int.lt_zpow_succ_log_self (by norm_num) q
  have hzpos : ∀ z : Int, (0 : ℚ) < (2 : ℚ) ^ z := fun z => zpow_pos (by norm_num) z
  have hsc_lo : (2 : ℚ) ^ (52 : Int) ≤ q * (2 : ℚ) ^ ((52 : Int) - e) := by
    calc (2 : ℚ) ^ (52 : Int) = (2 : ℚ) ^ e * (2 : ℚ) ^ ((52 : Int) - e) := by
          rw [← zpow_add₀ h2ne]; congr 1; ring
      _ ≤ q * (2 : ℚ) ^ ((52 : Int) - e) :=
          mul_le_mul_of_nonneg_right hlo (hzpos _).le
  have hsc_hi : q * (2 : ℚ) ^ ((52 : Int) - e) < (2 : ℚ) ^ (53 : Int) := by
    calc q * (2 : ℚ) ^ ((52 : Int) - e)
        < (2 : ℚ) ^ (e + 1) * (2 : ℚ) ^ ((52 : Int) - e) :=
          mul_lt_mul_of_pos_right hhi (hzpos _)
      _ = (2 : ℚ) ^ (53 : Int) := by rw [← zpow_add₀ h2ne]; congr 1; ring
  have hr_lo : ((2 : Int) ^ (52 : Nat)) ≤ rne (q * (2 : ℚ) ^ ((52 : Int) - e)) := by
    refine le_trans (Int.le_floor.mpr ?_) (rne_floor_le _)
    rw [show (((2 : Int) ^ (52 : Nat) : Int) : ℚ) = (2 : ℚ) ^ ((52 : Int)) from
      by norm_num]
    exact hsc_lo
  have hr_hi : rne (q * (2 : ℚ) ^ ((52 : Int) - e)) ≤ (2 : Int) ^ (53 : Nat) := by
    refine le_trans (rne_le_floor_add_one _) ?_
    have : ⌊q * (2 : ℚ) ^ ((52 : Int) - e)⌋ < (2 : Int) ^ (53 : Nat) := by
      rw [Int.floor_lt,
        show (((2 : Int) ^ (53 : Nat) : Int) : ℚ) = (2 : ℚ) ^ ((53 : Int)) from
          by norm_num]
      exact hsc_hi
    omega
  unfold roundNear53
  rw [if_neg (not_le.mpr hq), ← he]
  constructor
  · calc (2 : ℚ) ^ e
        = (2 : ℚ) ^ (52 : Int) * (2 : ℚ) ^ (e - (52 : Int)) := by
          rw [← zpow_add₀ h2ne]; congr 1; ring
      _ ≤ (rne (q * (2 : ℚ) ^ ((52 : Int) - e)) : ℚ) * (2 : ℚ) ^ (e - (52 : Int)) := by
          refine mul_le_mul_of_nonneg_right ?_ (hzpos _).le
          rw [show ((2 : ℚ) ^ ((52 : Int))) = (((2 : Int) ^ (52 : Nat) : Int) : ℚ)
            from by norm_num]
          exact_mod_cast hr_lo
  · calc (rne (q * (2 : ℚ) ^ ((52 : Int) - e)) : ℚ) * (2 : ℚ) ^ (e - (52 : Int))
        ≤ (2 : ℚ) ^ (53 : Int) * (2 : ℚ) ^ (e - (52 : Int)) := by
          refine mul_le_mul_of_nonneg_right ?_ (hzpos _).le
          rw [show ((2 : ℚ) ^ ((53 : Int))) = (((2 : Int) ^ (53 : Nat) : Int) : ℚ)
            from by norm_num]
          exact_mod_cast hr_hi
      _ = (2 : ℚ) ^ (e + 1) := by rw [← zpow_add₀ h2ne]; congr 1; ring

/-- The rounded value of a non-negative rational is non-negative. -/
lemma roundNear53_nonneg (q : ℚ) : 0 ≤ roundNear53 q := by
  by_cases hq : q ≤ 0
  · unfold roundNear53; rw [if_pos hq]
  · exact le_trans (zpow_pos (by norm_num : (0:ℚ) < 2) _).le
      (roundNear53_pos_spec q (not_le.mp hq)).1

/-- Correct rounding is monotone. -/
lemma roundNear53_mono {x y : ℚ} (h : x ≤ y) :
    roundNear53 x ≤ roundNear53 y := by
  by_cases hx : x ≤ 0
  · calc roundNear53 x = 0 := by unfold roundNear53; rw [if_pos hx]
      _ ≤ roundNear53 y := roundNear53_nonneg y
  · have hx' : 0 < x := not_le.mp hx
    have hy' : 0 < y := lt_of_lt_of_le hx' h
    have hlog : Int.log 2 x ≤ Int.log 2 y := Int.log_mono_right hx' h
    rcases eq_or_lt_of_le hlog with heq | hlt
    · unfold roundNear53
      rw [if_neg (not_le.mpr hx'), if_neg (not_le.mpr hy'), ← heq]
      refine mul_le_mul_of_nonneg_right ?_ (zpow_pos (by norm_num : (0:ℚ) < 2) _).le
      exact_mod_cast rne_mono (mul_le_mul_of_nonneg_right h
        (zpow_pos (by norm_num : (0:ℚ) < 2) _).le)
    · calc roundNear53 x ≤ (2 : ℚ) ^ (Int.log 2 x + 1) :=
          (roundNear53_pos_spec x hx').2
        _ ≤ (2 : ℚ) ^ Int.log 2 y := zpow_le_zpow_right₀ one_le_two (by omega)
        _ ≤ roundNear53 y := (roundNear53_pos_spec y hy').1

/-- Values with a 53-bit significand are fixed by `roundNear53`. -/
lemma roundNear53_fix (k e : Int) (hk1 : (2 : Int) ^ (52 : Nat) ≤ k)
    (hk2 : k < (2 : Int) ^ (53 : Nat)) :
    roundNear53 ((k : ℚ) * (2 : ℚ) ^ (e - (52 : Int)))
      = (k : ℚ) * (2 : ℚ) ^ (e - (52 : Int)) := by
  have h2 : ((2 : ℕ) : ℚ) = (2 : ℚ) := by norm_num
  have h2ne : (2 : ℚ) ≠ 0 := by norm_num
  have hkpos : (0 : ℚ) < (k : ℚ) := by
    have : (0 : Int) < k := lt_of_lt_of_le (by norm_num) hk1
    exact_mod_cast this
  have hq : 0 < (k : ℚ) * (2 : ℚ) ^ (e - (52 : Int)) :=
    mul_pos hkpos (zpow_pos (by norm_num) _)
  have hlo : (2 : ℚ) ^ e ≤ (k : ℚ) * (2 : ℚ) ^ (e - (52 : Int)) := by
    calc (2 : ℚ) ^ e = (2 : ℚ) ^ (52 : Int) * (2 : ℚ) ^ (e - (52 : Int)) := by
          rw [← zpow_add₀ h2ne]; congr 1; ring
      _ ≤ (k : ℚ) * (2 : ℚ) ^ (e - (52 : Int)) := by
          refine mul_le_mul_of_nonneg_right ?_ (zpow_pos (by norm_num : (0:ℚ) < 2) _).le
          rw [show ((2 : ℚ) ^ ((52 : Int))) = (((2 : Int) ^ (52 : Nat) : Int) : ℚ)
            from by norm_num]
          exact_mod_cast hk1
  have hhi : (k : ℚ) * (2 : ℚ) ^ (e - (52 : Int)) < (2 : ℚ) ^ (e + 1) := by
    calc (k : ℚ) * (2 : ℚ) ^ (e - (52 : Int))
        < (2 : ℚ) ^ (53 : Int) * (2 : ℚ) ^ (e - (52 : Int)) := by
          refine mul_lt_mul_of_pos_right ?_ (zpow_pos (by norm_num) _)
          rw [show ((2 : ℚ) ^ ((53 : Int))) = (((2 : Int) ^ (53 : Nat) : Int) : ℚ)
            from by norm_num]
          exact_mod_cast hk2
      _ = (2 : ℚ) ^ (e + 1) := by rw [← zpow_add₀ h2ne]; congr 1; ring
  have hlog : Int.log 2 ((k : ℚ) * (2 : ℚ) ^ (e - (52 : Int))) = e := by
    have hle := (Int.zpow_le_iff_le_log (by norm_num : (1 : ℕ) < 2) hq).mp
      (by rw [h2]; exact hlo)
    have hlt2 : Int.log 2 ((k : ℚ) * (2 : ℚ) ^ (e - (52 : Int))) < e + 1 := by
      refine (Int.lt_zpow_iff_log_lt (by norm_num : (1 : ℕ) < 2) hq).mp ?_
      rw [h2]; exact hhi
    omega
  have hscaled : (k : ℚ) * (2 : ℚ) ^ (e - (52 : Int)) * (2 : ℚ) ^ ((52 : Int) - e)
      = (k : ℚ) := by
    rw [mul_assoc, ← zpow_add₀ h2ne]
    rw [show e - (52 : Int) + ((52 : Int) - e) = 0 from by ring]
    rw [zpow_zero, mul_one]
  unfold roundNear53
  rw [if_neg (not_le.mpr hq), hlog]
  dsimp only
  rw [hscaled, rne_intCast]

/-- `1` is exactly representable, hence fixed by `roundNear53`. -/
lemma roundNear53_one : roundNear53 1 = 1 := by
  have h := roundNear53_fix ((2 : Int) ^ (52 : Nat)) 0 le_rfl (by norm_num)
  have heq : (((2 : Int) ^ (52 : Nat) : Int) : ℚ) * (2 : ℚ) ^ ((0 : Int) - (52 : Int))
      = 1 := by
    rw [show (((2 : Int) ^ (52 : Nat) : Int) : ℚ) = (2 : ℚ) ^ ((52 : Int)) from
      by norm_num, ← zpow_add₀ (by norm_num : (2 : ℚ) ≠ 0)]
    norm_num
  rw [heq] at h
  exact h

/-- `100` is exactly representable, hence fixed by `roundNear53`. -/
lemma roundNear53_hundred : roundNear53 100 = 100 := by
  have h := roundNear53_fix (100 * (2 : Int) ^ (46 : Nat)) 6 (by norm_num) (by norm_num)
  have heq : ((100 * (2 : Int) ^ (46 : Nat) : Int) : ℚ) * (2 : ℚ) ^ ((6 : Int) - (52 : Int))
      = 100 := by
    rw [show ((100 * (2 : Int) ^ (46 : Nat) : Int) : ℚ)
        = 100 * (2 : ℚ) ^ ((46 : Int)) from by norm_num,
      mul_assoc, ← zpow_add₀ (by norm_num : (2 : ℚ) ≠ 0)]
    norm_num
  rw [heq] at h
  exact h

/-- `pct` is monotone in the processed count. -/
lemma pct_mono (m m' n : Nat) (h : m ≤ m') : pct m n ≤ pct m' n := by
  unfold pct
  refine Int.toNat_le_toNat (Int.floor_mono (roundNear53_mono
    (mul_le_mul_of_nonneg_right (roundNear53_mono ?_) (by norm_num))))
  rcases Nat.eq_zero_or_pos n with h0 | hpos
  · subst h0; simp
  · have hn : (0 : ℚ) < (n : ℚ) := by exact_mod_cast hpos
    exact (div_le_div_iff_of_pos_right hn).mpr (by exact_mod_cast h)

/-- `pct` never exceeds 100 while the processed count is within the
total. -/
lemma pct_le_100 (m n : Nat) (h : m ≤ n) : pct m n ≤ 100 := by
  unfold pct
  have h1 : roundNear53 ((m : ℚ) / (n : ℚ)) ≤ 1 := by
    rcases Nat.eq_zero_or_pos n with h0 | hpos
    · subst h0
      rw [Nat.cast_zero, div_zero]
      rw [show roundNear53 0 = 0 from by unfold roundNear53; rw [if_pos le_rfl]]
      norm_num
    · have hn : (0 : ℚ) < (n : ℚ) := by exact_mod_cast hpos
      calc roundNear53 ((m : ℚ) / (n : ℚ)) ≤ roundNear53 1 :=
            roundNear53_mono ((div_le_one hn).mpr (by exact_mod_cast h))
        _ = 1 := roundNear53_one
  have hb : roundNear53 (roundNear53 ((m : ℚ) / (n : ℚ)) * 100) ≤ 100 := by
    calc roundNear53 (roundNear53 ((m : ℚ) / (n : ℚ)) * 100)
        ≤ roundNear53 100 := roundNear53_mono (by linarith)
      _ = 100 := roundNear53_hundred
  have hfl : ⌊roundNear53 (roundNear53 ((m : ℚ) / (n : ℚ)) * 100)⌋ ≤ (100 : Int) := by
    refine le_trans (Int.floor_mono hb) ?_
    norm_num
  exact Int.toNat_le.mpr (by exact_mod_cast hfl)

/-- Characterization of the registry-state trace of a whole import run
(readable file): the first entry is the endpoint's initial state, the
second write sets only `total`/`status`/`message`, the `k`-th row write
carries `procesados = k + 1` and the percentage while leaving the
success/failure/duplicate counters at their initial values, and the
final write is the terminal state with `progress = 100`. -/
lemma run_trace_getD (store : List Product) (gateway : Nat → Bool)
    (rows : List ExcelRow) (job0 : ImportJob) (msg : String) (d : ImportJob) :
    (process_excel_file_sync store gateway rows job0 true msg).trace.length
        = rows.length + 3 ∧
    (process_excel_file_sync store gateway rows job0 true msg).trace.getD 0 d
        = job0 ∧
    ((process_excel_file_sync store gateway rows job0 true msg).trace.getD 1
        d).progress = job0.progress ∧
    (∀ k, k < rows.length →
      ((process_excel_file_sync store gateway rows job0 true msg).trace.getD
          (k + 2) d).procesados = k + 1 ∧
      ((process_excel_file_sync store gateway rows job0 true msg).trace.getD
          (k + 2) d).progress = pct (k + 1) rows.length ∧
      ((process_excel_file_sync store gateway rows job0 true msg).trace.getD
          (k + 2) d).exitosos = job0.exitosos ∧
      ((process_excel_file_sync store gateway rows job0 true msg).trace.getD
          (k + 2) d).errores = job0.errores ∧
      ((process_excel_file_sync store gateway rows job0 true msg).trace.getD
          (k + 2) d).duplicados = job0.duplicados) ∧
    (process_excel_file_sync store gateway rows job0 true msg).trace.getD
        (rows.length + 2) d
      = (process_excel_file_sync store gateway rows job0 true msg).job ∧
    (process_excel_file_sync store gateway rows job0 true msg).job.progress
        = 100 ∧
    (process_excel_file_sync store gateway rows job0 true msg).job.status
        = "completado" := by
  simp only [process_excel_file_sync]
  rw [if_neg (by simp)]
  dsimp only
  obtain ⟨hlen, hk⟩ := importLoop_trace_spec gateway rows.length rows 0
    { job0 with
      total := rows.length, status := "procesando",
      message := s!"Procesando {rows.length} productos..." }
    store 0 0 0 [] d
  refine ⟨?_, rfl, rfl, ?_, ?_, rfl, rfl⟩
  · simp only [List.length_cons, List.length_append, List.length_nil, hlen]
  · intro k hkn
    simp only [List.getD_cons_succ]
    rw [getD_append_left _ _ _ k (by rw [hlen]; exact hkn)]
    obtain ⟨h1, h2, h3, h4, h5⟩ := hk k hkn
    exact ⟨by rw [h1, Nat.zero_add], by rw [h2, Nat.zero_add],
      by rw [h3], by rw [h4], by rw [h5]⟩
  · simp only [List.getD_cons_succ]
    rw [show ∀ (l l' : List ImportJob) (dd : ImportJob) (n : Nat),
        n = l.length → (l ++ l').getD n dd = l'.getD 0 dd from
      fun l l' dd n h => h ▸ getD_append_firstRight l l' dd]
    · rfl
    · exact hlen.symm

def c8row1 : ExcelRow :=
  { nombre := some "P1", sku := none, precio := some 5, stockVal := some 3,
    minStockVal := none, categoria := none, descripcion := none }

def c8row2 : ExcelRow :=
  { nombre := some "P2", sku := none, precio := some 7, stockVal := some 4,
    minStockVal := none, categoria := none, descripcion := none }

def c8run : ImportRun :=
  process_excel_file_sync [] (fun _ => true) [c8row1, c8row2]
    (initialJob "u1" "alice") true ""

/-- C8 counterexample: in a two-row run whose first row succeeds, every
registry state before the single final write still reports
`exitosos = 0` — in particular the state visible between row 1's
completion and row 2's start.  The succeeded/failed/duplicate counters
are buffered in locals until the end of the file, contradicting the
claim that they are updated in the registry after each row. -/
theorem import_progress_counters_buffered :
    (processRowData [] c8row1 0 true).fst = .success "P1" ∧
    c8run.trace.map (fun j => j.procesados) = [0, 0, 1, 2, 2] ∧
    c8run.trace.map (fun j => j.exitosos) = [0, 0, 0, 0, 2] := by
  refine ⟨by decide, by decide, by decide⟩

/-- C8 (amended).  After each row, only `procesados`, the percentage
`pct (k+1) total` (written at the start of processing row `k`), and the
message are published to the Progress Registry and are visible before
the next row begins; the `exitosos` / `errores` / `duplicados` counters
keep their initial values in every per-row state and are published once,
in the single final write that also sets `status = "completado"` and
`progress = 100`. -/
theorem import_progress_per_row_visibility (store : List Product)
    (gateway : Nat → Bool) (rows : List ExcelRow) (job0 : ImportJob)
    (msg : String) :
    (process_excel_file_sync store gateway rows job0 true msg).trace.length
        = rows.length + 3 ∧
    (process_excel_file_sync store gateway rows job0 true msg).trace.getD 0
        job0 = job0 ∧
    (∀ k, k < rows.length →
      ((process_excel_file_sync store gateway rows job0 true msg).trace.getD
          (k + 2) job0).procesados = k + 1 ∧
      ((process_excel_file_sync store gateway rows job0 true msg).trace.getD
          (k + 2) job0).progress = pct (k + 1) rows.length ∧
      ((process_excel_file_sync store gateway rows job0 true msg).trace.getD
          (k + 2) job0).exitosos = job0.exitosos ∧
      ((process_excel_file_sync store gateway rows job0 true msg).trace.getD
          (k + 2) job0).errores = job0.errores ∧
      ((process_excel_file_sync store gateway rows job0 true msg).trace.getD
          (k + 2) job0).duplicados = job0.duplicados) ∧
    (process_excel_file_sync store gateway rows job0 true msg).trace.getD
        (rows.length + 2) job0
      = (process_excel_file_sync store gateway rows job0 true msg).job ∧
    (process_excel_file_sync store gateway rows job0 true msg).job.status
        = "completado" ∧
    (process_excel_file_sync store gateway rows job0 true msg).job.progress
        = 100 := by
  obtain ⟨h1, h2, _, h4, h5, h6, h7⟩ :=
    run_trace_getD store gateway rows job0 msg job0
  exact ⟨h1, h2, h4, h5, h7, h6⟩

/-- Witness for the amended C8: in the concrete two-row run, the state
written at the start of row 1 carries `procesados = 1` and 50 %, while
its success counter still holds the initial 0. -/
theorem import_progress_per_row_visibility_witness :
    (c8run.trace.getD 2 (initialJob "u1" "alice")).procesados = 1 ∧
    (c8run.trace.getD 2 (initialJob "u1" "alice")).progress = pct 1 2 ∧
    (c8run.trace.getD 2 (initialJob "u1" "alice")).exitosos = 0 := by
  obtain ⟨hp, hq, he, _, _⟩ :=
    (import_progress_per_row_visibility [] (fun _ => true) [c8row1, c8row2]
      (initialJob "u1" "alice") "").2.2.1 0 (by decide)
  exact ⟨hp, hq, he⟩

/-! ## C9 — monotone progress, atomic snapshots -/

/-- C9.  For a single import job, the sequence of registry states the
run makes visible has a monotonically non-decreasing `progress` value —
on the normal path and on the read-failure path alike — so no poller
can observe a decrease; and a poll returns the job's full stored entry
in one piece (every registry access in the source holds `progress_lock`,
so the trace of whole states is exactly what pollers can see — reads are
never torn). -/
theorem import_progress_monotone (store : List Product)
    (gateway : Nat → Bool) (rows : List ExcelRow) (job0 : ImportJob)
    (readOk : Bool) (msg : String) (hp0 : job0.progress = 0) :
    List.Chain' (fun a b => a.progress ≤ b.progress)
      (process_excel_file_sync store gateway rows job0 readOk msg).trace ∧
    (∀ (reg : Registry) (uid : String) (e : String × ImportJob),
      reg.find? (fun x => x.fst = uid) = some e →
      get_upload_progress reg uid = .ok e.snd) := by
  constructor
  · cases readOk with
    | false =>
      simp only [process_excel_file_sync]
      rw [if_pos trivial]
      dsimp only
      rw [List.chain'_cons]
      exact ⟨Nat.le.refl, List.chain'_singleton _⟩
    | true =>
      obtain ⟨hlen, h0, h1, hk, hlast, h100, _⟩ :=
        run_trace_getD store gateway rows job0 msg job0
      rw [List.chain'_iff_get]
      intro i hi
      rw [hlen] at hi
      have hbridge : ∀ (j : Nat)
          (hj : j < (process_excel_file_sync store gateway rows job0 true
            msg).trace.length),
          (process_excel_file_sync store gateway rows job0 true
              msg).trace.get ⟨j, hj⟩
            = (process_excel_file_sync store gateway rows job0 true
                msg).trace.getD j job0 := by
        intro j hj
        rw [List.getD_eq_getElem _ _ hj]
        rfl
      rw [hbridge, hbridge]
      cases i with
      | zero =>
        rw [h0, h1]
      | succ i' =>
        cases i' with
        | zero =>
          rw [h1, hp0]
          exact Nat.zero_le _
        | succ k =>
          have hkn : k < rows.length := by omega
          by_cases hlt : k + 1 < rows.length
          · show ((process_excel_file_sync store gateway rows job0 true
                msg).trace.getD (k + 2) job0).progress ≤
              ((process_excel_file_sync store gateway rows job0 true
                msg).trace.getD (k + 1 + 2) job0).progress
            rw [(hk k hkn).2.1, (hk (k + 1) hlt).2.1]
            exact pct_mono _ _ _ (by omega)
          · show ((process_excel_file_sync store gateway rows job0 true
                msg).trace.getD (k + 2) job0).progress ≤
              ((process_excel_file_sync store gateway rows job0 true
                msg).trace.getD (k + 1 + 2) job0).progress
            rw [(hk k hkn).2.1,
              show k + 1 + 2 = rows.length + 2 from by omega, hlast, h100]
            exact pct_le_100 _ _ (by omega)
  · intro reg uid e h
    unfold get_upload_progress
    rw [h]

def c9row : ExcelRow :=
  { nombre := some "Q1", sku := none, precio := some 2, stockVal := some 1,
    minStockVal := none, categoria := none, descripcion := none }

/-- Witness for C9: a concrete one-row run starting from the endpoint's
initial entry has a monotone progress trace. -/
theorem import_progress_monotone_witness :
    (initialJob "u9" "bob").progress = 0 ∧
    List.Chain' (fun a b => a.progress ≤ b.progress)
      (process_excel_file_sync [] (fun _ => true) [c9row]
        (initialJob "u9" "bob") true "").trace :=
  ⟨rfl, (import_progress_monotone [] (fun _ => true) [c9row]
    (initialJob "u9" "bob") true "" rfl).1⟩

/-! ## C10 — a rejected upload still has a pollable registry entry -/

/-- Overwriting an existing key makes it the unique `find?` result. -/
lemma find?_map_overwrite (uid : String) (job : ImportJob) :
    ∀ (reg : Registry) (e0 : String × ImportJob),
      reg.find? (fun e => e.fst = uid) = some e0 →
      (reg.map (fun e => if e.fst = uid then (uid, job) else e)).find?
          (fun e => e.fst = uid) = some (uid, job) := by
  intro reg
  induction reg with
  | nil => intro e0 h; cases h
  | cons a as ih =>
    intro e0 h
    by_cases pa : a.fst = uid
    · rw [List.map_cons, if_pos pa]
      rw [List.find?_cons_of_pos _ (by simp)]
    · rw [List.find?_cons_of_neg _ (by simpa using pa)] at h
      rw [List.map_cons, if_neg pa]
      rw [List.find?_cons_of_neg _ (by simpa using pa)]
      exact ih e0 h

/-- The registry entry written by `upload_excel_async` before any
validation is retrievable under its upload id. -/
lemma setEntry_find (reg : Registry) (uid : String) (job : ImportJob) :
    (setEntry reg uid job).find? (fun e => e.fst = uid) = some (uid, job) := by
  unfold setEntry
  by_cases h : (List.find? (fun e => e.fst = uid) reg).isSome
  · rw [if_pos h]
    obtain ⟨e0, he0⟩ := Option.isSome_iff_exists.mp h
    exact find?_map_overwrite uid job reg e0 he0
  · rw [if_neg h]
    have hnone : reg.find? (fun e => e.fst = uid) = none := by
      cases hf : reg.find? (fun e => e.fst = uid) with
      | none => rfl
      | some e => rw [hf] at h; simp at h
    rw [find?_append_of_none _ _ _ hnone]
    rw [List.find?_cons_of_pos _ (by simp)]

/-- The error-marking pass of the exception handler maps the found
entry to its `status := "error"` copy under `find?`. -/
lemma find?_map_statusError (uid : String) :
    ∀ (reg : Registry) (e0 : String × ImportJob),
      reg.find? (fun e => e.fst = uid) = some e0 →
      (reg.map (fun e =>
          if e.fst = uid then (e.fst, { e.snd with status := "error" })
          else e)).find? (fun e => e.fst = uid)
        = some (e0.fst, { e0.snd with status := "error" }) := by
  intro reg
  induction reg with
  | nil => intro e0 h; cases h
  | cons a as ih =>
    intro e0 h
    by_cases pa : a.fst = uid
    · rw [List.find?_cons_of_pos _ (by simpa using pa)] at h
      rw [List.map_cons, if_pos pa]
      rw [List.find?_cons_of_pos _ (by simpa using pa)]
      cases h
      rfl
    · rw [List.find?_cons_of_neg _ (by simpa using pa)] at h
      rw [List.map_cons, if_neg pa]
      rw [List.find?_cons_of_neg _ (by simpa using pa)]
      exact ih e0 h

/-- C10.  The registry entry for an upload is created before the file is
validated, so whenever the upload request is rejected (wrong extension,
unreadable spreadsheet, or missing required columns) the generated
`upload_id` still maps to an entry whose status has been set to
`"error"`, and polling that id returns this entry instead of NotFound. -/
theorem upload_reject_registry_error (reg : Registry)
    (uid username : String) (r : UploadReject) :
    (∃ d, (upload_excel_async reg uid username (some r)).snd
      = .error d) ∧
    get_upload_progress (upload_excel_async reg uid username (some r)).fst uid
      = .ok { initialJob uid username with status := "error" } := by
  constructor
  · exact ⟨_, rfl⟩
  · have h1 := setEntry_find reg uid (initialJob uid username)
    have h2 := find?_map_statusError uid
      (setEntry reg uid (initialJob uid username)) _ h1
    unfold upload_excel_async
    dsimp only
    unfold get_upload_progress
    rw [h2]
